import Mathlib

/-!
Verification development for the Mixture Discriminant Analysis class in
`mda.py`.

The numeric primitives the source delegates to externally — the multivariate
normal density `mvn.pdf`, the natural logarithm `np.log`, and the k-means
clustering routine — are modelled as function parameters, and all arithmetic
is carried out over `ℚ`.  Division follows the Lean convention `x / 0 = 0`;
at the places where numpy would instead produce `NaN` the surrounding
theorems record this explicitly.  The module-level free variable `X` that
`_m_step` reads is modelled as an explicit parameter of `m_step`, distinct
from the stored field `MDAState.X`.
-/

namespace MDA

open Matrix

/-- External multivariate normal density (`mvn.pdf` applied row-wise):
arguments are one observation row, one mean column and the pooled
covariance matrix. -/
abbrev Pdf (m : ℕ) : Type := (Fin m → ℚ) → (Fin m → ℚ) → Matrix (Fin m) (Fin m) ℚ → ℚ

/-- External clustering primitive (`KMeans(...).fit` + `.predict` on the same
data): arguments are `n_clusters`, `max_iter`, the `init` method string,
`tol`, and the data rows; the result is a hard cluster label per data row. -/
abbrev KMeansPrim (m : ℕ) : Type := ℕ → ℕ → String → ℚ → List (Fin m → ℚ) → List ℕ

/-- The mutable state of one `MDA` object, as laid out in `__init__`.
Per-class arrays are dependently sized by `clusters i` (ragged shapes). -/
structure MDAState (n m k : ℕ) (clusters : Fin k → ℕ) where
  Y : Matrix (Fin n) (Fin k) ℚ
  X : Matrix (Fin n) (Fin m) ℚ
  class_prior : Fin k → ℚ
  latent_var_prior : (i : Fin k) → Fin (clusters i) → ℚ
  freq : Fin k → ℚ
  covar : Matrix (Fin m) (Fin m) ℚ
  mu : (i : Fin k) → Matrix (Fin m) (Fin (clusters i)) ℚ
  responsibilities : (i : Fin k) → Matrix (Fin n) (Fin (clusters i)) ℚ
  lower_bounds : List ℚ
  kmeans_maxiter : ℕ
  kmeans_retsarts : ℕ
  max_iter : ℕ
  kmeans_theshold : ℚ
  mda_threshold : ℚ
  accuracy : ℚ

variable {n m k : ℕ} {clusters : Fin k → ℕ}

/-- `bounded_variable(x, lo, hi)`: the source first rewrites entries with
`x[x>hi] = hi`, then `x[x<lo] = lo`, and returns the result; per entry this
is the following pure function. -/
def bounded_variable (x lo hi : ℚ) : ℚ :=
  let x1 := if hi < x then hi else x
  if x1 < lo then lo else x1

/-- The clipped density used by the E-step, line
`prior = self.bounded_variable(mvn.pdf(self.X, self.mu[i][:,j], self.covar),
self.accuracy, 1-self.accuracy)`, at observation `t`. -/
def eStepDensity (pdf : Pdf m) (s : MDAState n m k clusters) (i : Fin k)
    (j : Fin (clusters i)) (t : Fin n) : ℚ :=
  bounded_variable (pdf (fun a => s.X t a) (fun a => s.mu i a j) s.covar)
    s.accuracy (1 - s.accuracy)

/-- The clipped density used by `posterior_probs`, line
`p = self.bounded_variable(mvn.pdf(self.X, self.mu[k][:,j], self.covar),
self.accuracy, 1-self.accuracy)`, at observation `t`. -/
def postDensity (pdf : Pdf m) (s : MDAState n m k clusters) (i : Fin k)
    (j : Fin (clusters i)) (t : Fin n) : ℚ :=
  bounded_variable (pdf (fun a => s.X t a) (fun a => s.mu i a j) s.covar)
    s.accuracy (1 - s.accuracy)

/-- Unnormalised responsibilities written by the E-step before row
normalisation: `resp_k[:,j] = prior * self.latent_var_prior[i][j]`. -/
def e_step_unnorm (pdf : Pdf m) (s : MDAState n m k clusters) (i : Fin k)
    (t : Fin n) (j : Fin (clusters i)) : ℚ :=
  eStepDensity pdf s i j t * s.latent_var_prior i j

/-- Row-normalisation divisor of the E-step:
`normaliser = np.sum(resp_k, axis = 1)` at row `t`. -/
def e_step_normaliser (pdf : Pdf m) (s : MDAState n m k clusters) (i : Fin k)
    (t : Fin n) : ℚ :=
  ∑ j, e_step_unnorm pdf s i t j

/-- The scalar accumulated across all classes and components in one E-step:
`w = weighting*np.log(prior) + weighting*np.log(self.latent_var_prior[i][j])`,
`lower_bound += np.sum(w)`. -/
def e_step_lower_bound (pdf : Pdf m) (log : ℚ → ℚ)
    (s : MDAState n m k clusters) : ℚ :=
  ∑ i, ∑ j, ∑ t,
    (s.Y t i * s.responsibilities i t j * log (eStepDensity pdf s i j t) +
      s.Y t i * s.responsibilities i t j * log (s.latent_var_prior i j))

/-- `_e_step_lower_bound_likelihood`: recomputes every class's responsibility
matrix (clipped density times mixing weight, then each row divided by its row
sum — with no zero check on the divisor) and appends one lower-bound value.
The `weighting` factor reads the responsibility column before it is
overwritten in the same loop iteration, hence the old matrices
`s.responsibilities` appear in the lower bound. -/
def e_step_lower_bound_likelihood (pdf : Pdf m) (log : ℚ → ℚ)
    (s : MDAState n m k clusters) : MDAState n m k clusters :=
  { s with
    responsibilities := fun i => Matrix.of fun t j =>
      e_step_unnorm pdf s i t j / e_step_normaliser pdf s i t
    lower_bounds := s.lower_bounds ++ [e_step_lower_bound pdf log s] }

/-- Masked responsibility weights of the M-step:
`class_indicator = self.Y[:,i] * self.responsibilities[i][:,j]`. -/
def class_indicator (s : MDAState n m k clusters) (i : Fin k)
    (j : Fin (clusters i)) (t : Fin n) : ℚ :=
  s.Y t i * s.responsibilities i t j

/-- `_m_step`: recomputes mixing weights, means and the pooled covariance.
The parameter `X` models the module-level free variable `X` that the line
`weighted_means = np.sum(np.dot(X.T, np.diagflat(class_indicator)), axis=1)`
reads (the source does not write `self.X` there); the covariance line does
use the stored `self.X`.  No division is guarded: a zero responsibility mass
or a zero `freq[i]` is divided through (numpy: `NaN`; here: `x / 0 = 0`). -/
def m_step (X : Matrix (Fin n) (Fin m) ℚ) (s : MDAState n m k clusters) :
    MDAState n m k clusters :=
  let latent' : (i : Fin k) → Fin (clusters i) → ℚ := fun i j =>
    (∑ t, class_indicator s i j t) / s.freq i
  let mu' : (i : Fin k) → Matrix (Fin m) (Fin (clusters i)) ℚ := fun i =>
    Matrix.of fun a j =>
      (∑ t, X t a * class_indicator s i j t) / ∑ t, class_indicator s i j t
  let centered : (i : Fin k) → Fin (clusters i) → Matrix (Fin n) (Fin m) ℚ :=
    fun i j => Matrix.of fun t a => s.X t a - mu' i a j
  let covarAccum : Matrix (Fin m) (Fin m) ℚ :=
    ∑ i, ∑ j, (centered i j)ᵀ * Matrix.diagonal (class_indicator s i j) * centered i j
  { s with
    latent_var_prior := latent'
    mu := mu'
    covar := Matrix.of fun a b => covarAccum a b / (n : ℚ) }

/-- `_class_prior_compute`: `self.class_prior = self.freq / np.sum(self.freq)`. -/
def class_prior_compute (s : MDAState n m k clusters) : MDAState n m k clusters :=
  { s with class_prior := fun i => s.freq i / ∑ i', s.freq i' }

/-- Unnormalised posterior written by `posterior_probs`:
`posterior[:,k] = class_prob * self.class_prior[k]` with
`class_prob = Σ_j p * self.latent_var_prior[k][j]`. -/
def post_unnorm (pdf : Pdf m) (s : MDAState n m k clusters) (t : Fin n)
    (i : Fin k) : ℚ :=
  (∑ j, postDensity pdf s i j t * s.latent_var_prior i j) * s.class_prior i

/-- `posterior_probs`: the method takes no query matrix — the densities are
evaluated at the stored training rows `self.X` — and ends with
`posterior /= np.outer(np.sum(posterior, axis=1), np.ones(self.k))`. -/
def posterior_probs (pdf : Pdf m) (s : MDAState n m k clusters) :
    Matrix (Fin n) (Fin k) ℚ :=
  Matrix.of fun t i => post_unnorm pdf s t i / ∑ i', post_unnorm pdf s t i'

/-- Row indices selected by the boolean mask `self.Y[:,i] == 1`, in order. -/
def class_rows (Y : Matrix (Fin n) (Fin k) ℚ) (i : Fin k) : List (Fin n) :=
  (List.finRange n).filter fun t => decide (Y t i = 1)

/-- The data subset `self.X[self.Y[:,i]==1, :]` passed to the clustering
primitive, as a list of feature rows. -/
def class_data (s : MDAState n m k clusters) (i : Fin k) : List (Fin m → ℚ) :=
  (class_rows s.Y i).map fun t a => s.X t a

/-- `_initialise_params`: computes the class prior, then for every class `i`
invokes the clustering primitive configured with `n_clusters = clusters[i]`,
`max_iter = self.kmeans_maxiter`, `init = "k-means++"` and
`tol = self.kmeans_theshold` (the stored restart count
`self.kmeans_retsarts` is never passed), writes the resulting hard
assignment one-hot into the rows with `Y[:,i] == 1` (other rows keep their
previous responsibility values), and finishes with one M-step.  `X` is the
module-level variable that the inner `_m_step` reads. -/
def initialise_params (km : KMeansPrim m) (X : Matrix (Fin n) (Fin m) ℚ)
    (s : MDAState n m k clusters) : MDAState n m k clusters :=
  let s1 := class_prior_compute s
  let s2 := { s1 with
    responsibilities := fun i =>
      let prediction :=
        km (clusters i) s1.kmeans_maxiter "k-means++" s1.kmeans_theshold (class_data s1 i)
      Matrix.of fun t j =>
        if s1.Y t i = 1 then
          (if prediction.get? ((class_rows s1.Y i).indexOf t) = some (j : ℕ) then 1 else 0)
        else s1.responsibilities i t j }
  m_step X s2

/-- Terminal states of the EM loop: leaving the `for` via `break` after the
convergence test, or exhausting `range(self.max_iter)`. -/
inductive TerminalState : Type where
  | Converged : TerminalState
  | MaxIterReached : TerminalState
deriving DecidableEq

/-- Body of `_iterate`, with the remaining iteration budget as fuel.  Each
pass runs the E-step, recomputes `delta` once the lower-bound history has
length at least 2 (`delta = (bounds[-1] - bounds[-2]) / abs(bounds[-2])`),
and either runs the M-step and continues (`delta > self.mda_threshold`) or
stops converged. -/
def iterate_loop (pdf : Pdf m) (log : ℚ → ℚ) (X : Matrix (Fin n) (Fin m) ℚ) :
    ℕ → ℚ → MDAState n m k clusters → MDAState n m k clusters × TerminalState
  | 0, _, s => (s, TerminalState.MaxIterReached)
  | Nat.succ fuel, delta, s =>
    let s1 := e_step_lower_bound_likelihood pdf log s
    let lb := s1.lower_bounds
    let delta1 :=
      if 2 ≤ lb.length then (lb.getLastD 0 - lb.dropLast.getLastD 0) / |lb.dropLast.getLastD 0|
      else delta
    if s1.mda_threshold < delta1 then iterate_loop pdf log X fuel delta1 (m_step X s1)
    else (s1, TerminalState.Converged)

/-- `_iterate`: `delta = 1; for i in range(self.max_iter): ...`. -/
def iterate (pdf : Pdf m) (log : ℚ → ℚ) (X : Matrix (Fin n) (Fin m) ℚ)
    (s : MDAState n m k clusters) : MDAState n m k clusters × TerminalState :=
  iterate_loop pdf log X s.max_iter 1 s

/-- `train`: `self._initialise_params(); self._iterate()`. -/
def train (km : KMeansPrim m) (pdf : Pdf m) (log : ℚ → ℚ)
    (X : Matrix (Fin n) (Fin m) ℚ) (s : MDAState n m k clusters) :
    MDAState n m k clusters × TerminalState :=
  iterate pdf log X (initialise_params km X s)

/-- `__init__`: the constructed state.  `freq = np.sum(self.Y, axis=0)`,
`covar = np.eye(self.m)`, means and responsibilities zero-filled
(`0.001 * np.zeros(...)` is the zero matrix), `lower_bounds = []`.  The
source's `self.class_prior = np.zeros(self.m)` allocation is dead code
(overwritten by `_class_prior_compute` before any read) and is embedded as
the zero vector of length `k`. -/
def mdaInit (gt : Matrix (Fin n) (Fin k) ℚ) (X : Matrix (Fin n) (Fin m) ℚ)
    (max_iter_init init_restarts : ℕ) (init_conv_theshold iter_conv_threshold : ℚ)
    (max_iter : ℕ) (accuracy : ℚ) : MDAState n m k clusters :=
  { Y := gt
    X := X
    class_prior := fun _ => 0
    latent_var_prior := fun i _ => 1 / (clusters i : ℚ)
    freq := fun i => ∑ t, gt t i
    covar := 1
    mu := fun _ => Matrix.of fun _ _ => 0
    responsibilities := fun _ => Matrix.of fun _ _ => 0
    lower_bounds := []
    kmeans_maxiter := max_iter_init
    kmeans_retsarts := init_restarts
    max_iter := max_iter
    kmeans_theshold := init_conv_theshold
    mda_threshold := iter_conv_threshold
    accuracy := accuracy }

/-- Modelled from the spec: the repository's `posterior_probs` takes no query
matrix, but the spec's contract is
`posterior_probabilities(X_query) -> n_query × k matrix` with the clipped
densities evaluated at the query rows.  This definition follows the spec's
words, for comparison with `posterior_probs`. -/
def posterior_probs_query {q : ℕ} (pdf : Pdf m) (s : MDAState n m k clusters)
    (Xq : Matrix (Fin q) (Fin m) ℚ) : Matrix (Fin q) (Fin k) ℚ :=
  let unnorm : Fin q → Fin k → ℚ := fun t i =>
    (∑ j, bounded_variable (pdf (fun a => Xq t a) (fun a => s.mu i a j) s.covar)
        s.accuracy (1 - s.accuracy) * s.latent_var_prior i j) * s.class_prior i
  Matrix.of fun t i => unnorm t i / ∑ i', unnorm t i'

/-! Concrete instances used to evaluate the definitions: two observations in
dimension one, two classes with one component each, the two training points
at 0 and 3 with one-hot labels. -/

abbrev cClusters : Fin 2 → ℕ := fun _ => 1

/-- A concrete rational stand-in for the external density primitive, positive
and decreasing in the squared distance to the mean. -/
def cPdf : Pdf 1 := fun x mu _ => 1 / (1 + (x 0 - mu 0) ^ 2)

/-- A concrete stand-in for `np.log` (its values never matter to the claims). -/
def cLog : ℚ → ℚ := fun x => x

/-- A concrete stand-in for the clustering primitive: every row to group 0. -/
def cKm : KMeansPrim 1 := fun _ _ _ _ data => data.map fun _ => 0

/-- A concrete module-level `X`, deliberately different from the stored
training matrix of `cState`. -/
def cGlobalX : Matrix (Fin 2) (Fin 1) ℚ := !![1; 1]

def cState : MDAState 2 1 2 cClusters :=
  { Y := !![1, 0; 0, 1]
    X := !![0; 3]
    class_prior := ![1/2, 1/2]
    latent_var_prior := fun _ _ => 1
    freq := ![1, 1]
    covar := 1
    mu := fun i => Matrix.of fun _ _ => if i = 0 then 0 else 3
    responsibilities := fun _ => Matrix.of fun _ _ => 1
    lower_bounds := []
    kmeans_maxiter := 300
    kmeans_retsarts := 2
    max_iter := 300
    kmeans_theshold := 1/100000
    mda_threshold := 1/100000000000000000000
    accuracy := 1/10 }

/-- `cState` with all responsibility mass removed: every component of every
class has zero masked responsibility mass. -/
def cStateZero : MDAState 2 1 2 cClusters :=
  { cState with responsibilities := fun _ => Matrix.of fun _ _ => 0 }

/-- `cState` with all mixing weights zero, so every E-step row-normalisation
divisor is zero. -/
def cStateLVZero : MDAState 2 1 2 cClusters :=
  { cState with latent_var_prior := fun _ _ => 0 }

/-- `cState` with a different stored restart count. -/
def cStateRestarts : MDAState 2 1 2 cClusters :=
  { cState with kmeans_retsarts := 7 }

/-- A concrete query matrix of points far outside the training support. -/
def cQueryX : Matrix (Fin 2) (Fin 1) ℚ := !![10; 10]

/-! ## Helper lemmas -/

theorem le_bounded_variable (x lo hi : ℚ) (h : lo ≤ hi) :
    lo ≤ bounded_variable x lo hi := by
  unfold bounded_variable
  dsimp only
  split_ifs <;> linarith

theorem iterate_loop_preserves_class_prior (pdf : Pdf m) (log : ℚ → ℚ)
    (X : Matrix (Fin n) (Fin m) ℚ) (fuel : ℕ) (delta : ℚ)
    (s : MDAState n m k clusters) :
    (iterate_loop pdf log X fuel delta s).1.class_prior = s.class_prior := by
  induction fuel generalizing delta s with
  | zero => rfl
  | succ fuel ih =>
    rw [iterate_loop]
    split <;> split <;> first | exact ih _ _ | rfl

theorem iterate_loop_lb_length (pdf : Pdf m) (log : ℚ → ℚ)
    (X : Matrix (Fin n) (Fin m) ℚ) (fuel : ℕ) (delta : ℚ)
    (s : MDAState n m k clusters) :
    (iterate_loop pdf log X fuel delta s).1.lower_bounds.length ≤
      s.lower_bounds.length + fuel := by
  induction fuel generalizing delta s with
  | zero => simp [iterate_loop]
  | succ fuel ih =>
    rw [iterate_loop]
    have hlen : (e_step_lower_bound_likelihood pdf log s).lower_bounds.length
        = s.lower_bounds.length + 1 := by
      show (s.lower_bounds ++ [e_step_lower_bound pdf log s]).length = s.lower_bounds.length + 1
      simp
    split <;> split <;>
      first
        | (refine le_trans (ih _ _) ?_
           have h2 : (m_step X (e_step_lower_bound_likelihood pdf log s)).lower_bounds.length
               = s.lower_bounds.length + 1 := hlen
           omega)
        | (show (e_step_lower_bound_likelihood pdf log s).lower_bounds.length ≤
              s.lower_bounds.length + (fuel + 1)
           rw [hlen]
           omega)

/-! ## C1 — the M-step has no degenerate-component check -/

/-- C1 (counterexample): at a state in which component `(0,0)` has zero masked
responsibility mass, `_m_step` still completes: it writes the divide-by-zero
artifact into the mean column (numpy: `NaN`; rational embedding: `0`) and a
zero mixing weight, and no error is raised — the function is total. -/
theorem c1_counterexample :
    (∑ t, class_indicator cStateZero 0 0 t) = 0 ∧
    (m_step cGlobalX cStateZero).mu 0 0 0 = 0 ∧
    (m_step cGlobalX cStateZero).latent_var_prior 0 0 = 0 := by
  refine ⟨?_, ?_, ?_⟩ <;>
    norm_num [m_step, class_indicator, cStateZero, cState, cGlobalX, Fin.sum_univ_two]

/-- C1 (amended): `_m_step` performs no zero-mass check: whenever a
component's total masked responsibility mass `sum(Y[:,i]*resp[i][:,j])` is
zero, the division is carried out anyway and the M-step completes, setting
the component's mean column to the divide-by-zero artifact (`NaN` in numpy,
`0` under the rational-division embedding) and its mixing weight to zero;
no degenerate-component error exists in the code. -/
theorem c1_mstep_divides_through_zero_mass (X : Matrix (Fin n) (Fin m) ℚ)
    (s : MDAState n m k clusters) (i : Fin k) (j : Fin (clusters i))
    (hmass : (∑ t, class_indicator s i j t) = 0) (a : Fin m) :
    (m_step X s).mu i a j = 0 ∧ (m_step X s).latent_var_prior i j = 0 := by
  constructor
  · show (∑ t, X t a * class_indicator s i j t) / (∑ t, class_indicator s i j t) = 0
    rw [hmass, div_zero]
  · show (∑ t, class_indicator s i j t) / s.freq i = 0
    rw [hmass, zero_div]

/-- C1 (witness): the amended theorem evaluated at the concrete degenerate
state. -/
theorem c1_witness :
    (∑ t, class_indicator cStateZero 0 0 t) = 0 ∧
    ((m_step cGlobalX cStateZero).mu 0 1 0 = 0 ∧
      (m_step cGlobalX cStateZero).latent_var_prior 0 0 = 0) := by
  have h0 : (∑ t, class_indicator cStateZero 0 0 t) = 0 := by
    norm_num [class_indicator, cStateZero, cState, Fin.sum_univ_two]
  exact ⟨h0, c1_mstep_divides_through_zero_mass cGlobalX cStateZero 0 0 h0 1⟩

/-! ## C2 — the M-step means read the module-level `X`, not `self.X` -/

/-- C2 (code bug): the mean update reads the module-level free variable `X`
(the `m_step` parameter), not the stored training matrix `self.X`: at the
concrete state whose stored matrix is `[[0],[3]]` and with module-level
`X = [[1],[1]]`, the computed mean of component `(0,0)` is `1` — the value
of the global-`X` formula — while the stored-matrix formula of the spec
yields `0`. -/
theorem c2_mstep_reads_global_X :
    (m_step cGlobalX cState).mu 0 0 0 =
      (∑ t, cGlobalX t 0 * class_indicator cState 0 0 t) /
        (∑ t, class_indicator cState 0 0 t) ∧
    (m_step cGlobalX cState).mu 0 0 0 = 1 ∧
    (∑ t, cState.X t 0 * class_indicator cState 0 0 t) /
      (∑ t, class_indicator cState 0 0 t) = 0 ∧
    (1 : ℚ) ≠ 0 := by
  refine ⟨rfl, ?_, ?_, by norm_num⟩ <;>
    norm_num [m_step, class_indicator, cState, cGlobalX, Fin.sum_univ_two]

/-! ## C5 — the E-step row normalisation has no zero-divisor check -/

/-- C5 (counterexample): at a state whose mixing weights are all zero, every
E-step row-normalisation divisor is zero, and the E-step divides through it
silently (numpy: `NaN` row; rational embedding: zero row, summing to `0`,
not `1`) — no error condition is raised. -/
theorem c5_counterexample :
    e_step_normaliser cPdf cStateLVZero 0 0 = 0 ∧
    (∀ j, (e_step_lower_bound_likelihood cPdf cLog cStateLVZero).responsibilities 0 0 j = 0) ∧
    (∑ j, (e_step_lower_bound_likelihood cPdf cLog cStateLVZero).responsibilities 0 0 j) ≠ 1 := by
  refine ⟨?_, ?_, ?_⟩
  · simp [e_step_normaliser, e_step_unnorm, cStateLVZero, cState]
  · intro j
    simp [e_step_lower_bound_likelihood, e_step_unnorm, cStateLVZero, cState]
  · simp [e_step_lower_bound_likelihood, e_step_unnorm, cStateLVZero, cState]

/-- C5 (amended): the row-normalisation divisor is not checked against zero:
whenever the row sum of unnormalised responsibilities is zero the E-step
divides through it silently and completes, writing the divide-by-zero
artifact (`NaN` in numpy, `0` in the rational embedding) into the whole
responsibility row; no error condition is surfaced. -/
theorem c5_estep_divides_through_zero_normaliser (pdf : Pdf m) (log : ℚ → ℚ)
    (s : MDAState n m k clusters) (i : Fin k) (t : Fin n)
    (h : e_step_normaliser pdf s i t = 0) (j : Fin (clusters i)) :
    (e_step_lower_bound_likelihood pdf log s).responsibilities i t j = 0 := by
  show e_step_unnorm pdf s i t j / e_step_normaliser pdf s i t = 0
  rw [h, div_zero]

/-- C5 (witness): the amended theorem evaluated at the concrete
zero-mixing-weight state. -/
theorem c5_witness :
    e_step_normaliser cPdf cStateLVZero 0 0 = 0 ∧
    (e_step_lower_bound_likelihood cPdf cLog cStateLVZero).responsibilities 0 0 0 = 0 := by
  have h : e_step_normaliser cPdf cStateLVZero 0 0 = 0 := by
    simp [e_step_normaliser, e_step_unnorm, cStateLVZero, cState]
  exact ⟨h, c5_estep_divides_through_zero_normaliser cPdf cLog cStateLVZero 0 0 h 0⟩

/-! ## C6 — density clipping policy -/

/-- C6: the clamp returns `x` unchanged when `lo ≤ x ≤ hi`, `hi` when
`x > hi` and `lo` when `x < lo` (for a consistent bound `lo ≤ hi`), and the
inference path applies exactly the same clamp with the same `accuracy`
bound as the E-step: the clipped density of `posterior_probs` coincides
with the clipped density of the E-step at every state, component and
observation. -/
theorem c6_clipping_policy (x lo hi : ℚ) (hlohi : lo ≤ hi) (pdf : Pdf m)
    (s : MDAState n m k clusters) (i : Fin k) (j : Fin (clusters i)) (t : Fin n) :
    ((lo ≤ x → x ≤ hi → bounded_variable x lo hi = x) ∧
      (hi < x → bounded_variable x lo hi = hi) ∧
      (x < lo → bounded_variable x lo hi = lo)) ∧
    postDensity pdf s i j t = eStepDensity pdf s i j t := by
  constructor
  · unfold bounded_variable
    refine ⟨fun h1 h2 => ?_, fun h1 => ?_, fun h1 => ?_⟩ <;>
      dsimp only <;> split_ifs <;> linarith
  · rfl

/-- C6 (witness): the clamp evaluated in each of its three cases, and the
shared clipping policy at the concrete state. -/
theorem c6_witness :
    bounded_variable (5 : ℚ) 0 1 = 1 ∧ bounded_variable (-3 : ℚ) 0 1 = 0 ∧
    bounded_variable (1/2 : ℚ) 0 1 = 1/2 ∧
    postDensity cPdf cState 0 0 0 = eStepDensity cPdf cState 0 0 0 :=
  ⟨(c6_clipping_policy 5 0 1 (by norm_num) cPdf cState 0 0 0).1.2.1 (by norm_num),
    (c6_clipping_policy (-3) 0 1 (by norm_num) cPdf cState 0 0 0).1.2.2 (by norm_num),
    (c6_clipping_policy (1/2) 0 1 (by norm_num) cPdf cState 0 0 0).1.1 (by norm_num)
      (by norm_num),
    (c6_clipping_policy 0 0 1 (by norm_num) cPdf cState 0 0 0).2⟩

/-! ## C7 — the class prior is set once at initialisation -/

/-- C7: `_class_prior_compute` sets `class_prior[i] = freq[i] / sum(freq)`;
`_initialise_params` leaves exactly that value in place (its trailing M-step
does not touch it), and the E-step, the M-step and the whole EM loop
preserve the class prior unchanged. -/
theorem c7_class_prior_set_once (s : MDAState n m k clusters) (pdf : Pdf m)
    (log : ℚ → ℚ) (X : Matrix (Fin n) (Fin m) ℚ) (km : KMeansPrim m)
    (fuel : ℕ) (delta : ℚ) (i : Fin k) :
    (class_prior_compute s).class_prior i = s.freq i / ∑ i', s.freq i' ∧
    (initialise_params km X s).class_prior i = s.freq i / ∑ i', s.freq i' ∧
    (e_step_lower_bound_likelihood pdf log s).class_prior = s.class_prior ∧
    (m_step X s).class_prior = s.class_prior ∧
    (iterate_loop pdf log X fuel delta s).1.class_prior = s.class_prior :=
  ⟨rfl, rfl, rfl, rfl, iterate_loop_preserves_class_prior pdf log X fuel delta s⟩

/-! ## C4 — responsibility rows of labeled observations sum to 1 -/

/-- C4: after an E-step, for every class `i` and observation `t` labeled
class `i`, the responsibility row sums to `1` over the `clusters i` columns,
given that the clipped densities and the mixing weights entering the
normalisation are positive (and the class has at least one component). -/
theorem c4_estep_row_stochastic (pdf : Pdf m) (log : ℚ → ℚ)
    (s : MDAState n m k clusters) (i : Fin k) (t : Fin n)
    (hc : 0 < clusters i)
    (hdens : ∀ j, 0 < eStepDensity pdf s i j t)
    (hmix : ∀ j, 0 < s.latent_var_prior i j)
    (_hlab : s.Y t i = 1) :
    ∑ j, (e_step_lower_bound_likelihood pdf log s).responsibilities i t j = 1 := by
  have hpos : 0 < e_step_normaliser pdf s i t := by
    refine Finset.sum_pos (fun j _ => mul_pos (hdens j) (hmix j)) ?_
    have : Nonempty (Fin (clusters i)) := Fin.pos_iff_nonempty.mp hc
    exact Finset.univ_nonempty
  calc ∑ j, (e_step_lower_bound_likelihood pdf log s).responsibilities i t j
      = ∑ j, e_step_unnorm pdf s i t j / e_step_normaliser pdf s i t :=
        Finset.sum_congr rfl fun j _ => rfl
    _ = (∑ j, e_step_unnorm pdf s i t j) / e_step_normaliser pdf s i t := by
        rw [Finset.sum_div]
    _ = 1 := div_self hpos.ne'

/-- C4 (witness): the row-sum theorem evaluated at the concrete state. -/
theorem c4_witness :
    (0 < cClusters 0 ∧ (∀ j, 0 < eStepDensity cPdf cState 0 j 0) ∧
      (∀ j, 0 < cState.latent_var_prior 0 j) ∧ cState.Y 0 0 = 1) ∧
    ∑ j, (e_step_lower_bound_likelihood cPdf cLog cState).responsibilities 0 0 j = 1 := by
  have h1 : 0 < cClusters 0 := Nat.one_pos
  have h2 : ∀ j, 0 < eStepDensity cPdf cState 0 j 0 := by
    intro j
    norm_num [eStepDensity, bounded_variable, cPdf, cState]
  have h3 : ∀ j, 0 < cState.latent_var_prior 0 j := by
    intro j
    norm_num [cState]
  have h4 : cState.Y 0 0 = 1 := by norm_num [cState]
  exact ⟨⟨h1, h2, h3, h4⟩, c4_estep_row_stochastic cPdf cLog cState 0 0 h1 h2 h3 h4⟩

/-! ## C3 — the inference operation takes no query matrix -/

/-- C3 (counterexample): `posterior_probs` accepts no query feature matrix:
its output coincides with the spec's query-accepting contract evaluated at
the stored training matrix `self.X`, and differs from the contract evaluated
at a query matrix of far-away points — the code cannot score anything but
the training data. -/
theorem c3_counterexample :
    posterior_probs cPdf cState = posterior_probs_query cPdf cState cState.X ∧
    posterior_probs cPdf cState 0 0 = 9/10 ∧
    posterior_probs_query cPdf cState cQueryX 0 0 = 1/2 ∧
    (9/10 : ℚ) ≠ 1/2 := by
  refine ⟨rfl, ?_, ?_, by norm_num⟩
  · norm_num [posterior_probs, post_unnorm, postDensity, bounded_variable, cPdf, cState,
      Fin.sum_univ_two, Fin.sum_univ_one]
  · norm_num [posterior_probs_query, bounded_variable, cPdf, cState, cQueryX,
      Fin.sum_univ_two, Fin.sum_univ_one]

/-- C3 (amended): `posterior_probs` takes no argument and scores the stored
training matrix, returning an `n × k` matrix; each row is non-negative and
sums to `1` whenever the clipping bounds are consistent and positive, the
mixing weights and class priors are non-negative, and some class has
positive prior and positive total mixing weight. -/
theorem c3_posterior_row_stochastic (pdf : Pdf m) (s : MDAState n m k clusters)
    (hacc : 0 < s.accuracy) (hacchi : s.accuracy ≤ 1 - s.accuracy)
    (hmix : ∀ i j, 0 ≤ s.latent_var_prior i j)
    (hcp : ∀ i, 0 ≤ s.class_prior i)
    (hex : ∃ i, 0 < s.class_prior i ∧ 0 < ∑ j, s.latent_var_prior i j)
    (t : Fin n) :
    (∀ i, 0 ≤ posterior_probs pdf s t i) ∧ ∑ i, posterior_probs pdf s t i = 1 := by
  have hdens : ∀ (i : Fin k) (j : Fin (clusters i)), s.accuracy ≤ postDensity pdf s i j t :=
    fun i j => le_bounded_variable _ _ _ hacchi
  have hu : ∀ i, 0 ≤ post_unnorm pdf s t i := by
    intro i
    refine mul_nonneg (Finset.sum_nonneg fun j _ => ?_) (hcp i)
    exact mul_nonneg (le_trans hacc.le (hdens i j)) (hmix i j)
  have hr : 0 < ∑ i', post_unnorm pdf s t i' := by
    obtain ⟨i0, hcp0, hmix0⟩ := hex
    refine Finset.sum_pos' (fun i _ => hu i) ⟨i0, Finset.mem_univ i0, ?_⟩
    refine mul_pos ?_ hcp0
    calc (0:ℚ) < s.accuracy * ∑ j, s.latent_var_prior i0 j := mul_pos hacc hmix0
      _ = ∑ j, s.accuracy * s.latent_var_prior i0 j := Finset.mul_sum _ _ _
      _ ≤ ∑ j, postDensity pdf s i0 j t * s.latent_var_prior i0 j :=
          Finset.sum_le_sum fun j _ =>
            mul_le_mul_of_nonneg_right (hdens i0 j) (hmix i0 j)
  constructor
  · intro i
    exact div_nonneg (hu i) hr.le
  · calc ∑ i, posterior_probs pdf s t i
        = ∑ i, post_unnorm pdf s t i / ∑ i', post_unnorm pdf s t i' :=
          Finset.sum_congr rfl fun i _ => rfl
      _ = (∑ i, post_unnorm pdf s t i) / ∑ i', post_unnorm pdf s t i' := by
          rw [Finset.sum_div]
      _ = 1 := div_self hr.ne'

/-- C3 (witness): the amended row-stochasticity theorem evaluated at the
concrete state. -/
theorem c3_witness :
    (0 < cState.accuracy ∧ cState.accuracy ≤ 1 - cState.accuracy ∧
      (∀ i j, 0 ≤ cState.latent_var_prior i j) ∧ (∀ i, 0 ≤ cState.class_prior i) ∧
      0 < cState.class_prior 0 ∧ 0 < ∑ j, cState.latent_var_prior 0 j) ∧
    (∀ i, 0 ≤ posterior_probs cPdf cState 0 i) ∧
    ∑ i, posterior_probs cPdf cState 0 i = 1 := by
  have hacc : 0 < cState.accuracy := by norm_num [cState]
  have hacchi : cState.accuracy ≤ 1 - cState.accuracy := by norm_num [cState]
  have hmix : ∀ i j, 0 ≤ cState.latent_var_prior i j := fun i j => by norm_num [cState]
  have hcp : ∀ i, 0 ≤ cState.class_prior i := by
    intro i
    fin_cases i <;> norm_num [cState]
  have hcp0 : 0 < cState.class_prior 0 := by norm_num [cState]
  have hmix0 : 0 < ∑ j, cState.latent_var_prior 0 j := by
    norm_num [cState, Fin.sum_univ_one]
  exact ⟨⟨hacc, hacchi, hmix, hcp, hcp0, hmix0⟩,
    c3_posterior_row_stochastic cPdf cState hacc hacchi hmix hcp ⟨0, hcp0, hmix0⟩ 0⟩

/-! ## C8 — initialiser configuration and one-hot placement -/

/-- C8 (counterexample): the stored restart count is dead configuration —
two states differing only in `kmeans_retsarts` produce identical
responsibilities, means and mixing weights from `_initialise_params`, because
the `KMeans(...)` call never receives the restart count. -/
theorem c8_counterexample :
    cState.kmeans_retsarts = 2 ∧ cStateRestarts.kmeans_retsarts = 7 ∧
    (initialise_params cKm cGlobalX cState).responsibilities =
      (initialise_params cKm cGlobalX cStateRestarts).responsibilities ∧
    (initialise_params cKm cGlobalX cState).mu =
      (initialise_params cKm cGlobalX cStateRestarts).mu ∧
    (initialise_params cKm cGlobalX cState).latent_var_prior =
      (initialise_params cKm cGlobalX cStateRestarts).latent_var_prior :=
  ⟨rfl, rfl, rfl, rfl, rfl⟩

/-- C8 (amended): for every class `i`, `_initialise_params` invokes the
clustering primitive configured with `clusters[i]` target groups, the
`max_iter_init` iteration cap, the `"k-means++"` init method and the
`init_conv_threshold` tolerance — but not the stored `init_restarts`
count, which is dead configuration — and places the resulting hard
assignment one-hot into the rows labeled class `i`, leaving every other
row's responsibility at its previous (zero-initialised) value. -/
theorem c8_initialiser_config (km : KMeansPrim m) (X : Matrix (Fin n) (Fin m) ℚ)
    (s : MDAState n m k clusters) (i : Fin k) (t : Fin n) (j : Fin (clusters i))
    (r : ℕ) :
    (initialise_params km X s).responsibilities i t j =
      (if s.Y t i = 1 then
        (if (km (clusters i) s.kmeans_maxiter "k-means++" s.kmeans_theshold
              (class_data s i)).get? ((class_rows s.Y i).indexOf t) = some (j : ℕ)
          then 1 else 0)
      else s.responsibilities i t j) ∧
    (initialise_params km X { s with kmeans_retsarts := r }).responsibilities i t j =
      (initialise_params km X s).responsibilities i t j :=
  ⟨rfl, rfl⟩

/-! ## C9 — EM loop semantics -/

/-- C9: the EM loop starts with `delta = 1` and budget `max_iter`; with no
budget left it stops in the MaxIterReached state; otherwise each iteration
first runs the E-step, recomputes `delta` only once the lower-bound history
has length at least 2 (as the relative change
`(bound[-1] - bound[-2]) / |bound[-2]|`), runs the M-step and continues
exactly when `delta` exceeds the threshold, and stops in the Converged state
otherwise; each E-step appends exactly one lower-bound value, so the loop
performs at most `max_iter` E-steps. -/
theorem c9_loop_semantics (pdf : Pdf m) (log : ℚ → ℚ)
    (X : Matrix (Fin n) (Fin m) ℚ) (fuel : ℕ) (delta : ℚ)
    (s : MDAState n m k clusters) :
    iterate pdf log X s = iterate_loop pdf log X s.max_iter 1 s ∧
    iterate_loop pdf log X 0 delta s = (s, TerminalState.MaxIterReached) ∧
    (iterate_loop pdf log X (fuel + 1) delta s =
      (let s1 := e_step_lower_bound_likelihood pdf log s
       let lb := s1.lower_bounds
       let delta1 :=
         if 2 ≤ lb.length then
           (lb.getLastD 0 - lb.dropLast.getLastD 0) / |lb.dropLast.getLastD 0|
         else delta
       if s1.mda_threshold < delta1 then
         iterate_loop pdf log X fuel delta1 (m_step X s1)
       else (s1, TerminalState.Converged))) ∧
    (e_step_lower_bound_likelihood pdf log s).lower_bounds =
      s.lower_bounds ++ [e_step_lower_bound pdf log s] ∧
    (iterate pdf log X s).1.lower_bounds.length ≤
      s.lower_bounds.length + s.max_iter :=
  ⟨rfl, rfl, rfl, rfl, iterate_loop_lb_length pdf log X s.max_iter 1 s⟩

/-! ## C10 — pooled covariance: formula, symmetry, positive semi-definiteness -/

/-- The centered data matrix of the M-step covariance accumulation, written
with the just-updated means:
`centered = self.X - np.outer(self.mu[i][:,j], np.ones(self.n)).T`. -/
def m_step_centered (X : Matrix (Fin n) (Fin m) ℚ) (s : MDAState n m k clusters)
    (i : Fin k) (j : Fin (clusters i)) : Matrix (Fin n) (Fin m) ℚ :=
  Matrix.of fun t a => s.X t a - (m_step X s).mu i a j

theorem dotProduct_sum_mulVec {ι : Type} (F : Finset ι) {mm : ℕ}
    (M : ι → Matrix (Fin mm) (Fin mm) ℚ) (v : Fin mm → ℚ) :
    v ⬝ᵥ (∑ x ∈ F, M x) *ᵥ v = ∑ x ∈ F, v ⬝ᵥ (M x) *ᵥ v := by
  classical
  induction F using Finset.induction_on with
  | empty => simp
  | insert h ih =>
    rw [Finset.sum_insert h, Finset.sum_insert h, Matrix.add_mulVec, dotProduct_add, ih]

theorem quadform_nonneg {nn mm : ℕ} (C : Matrix (Fin nn) (Fin mm) ℚ)
    (w : Fin nn → ℚ) (hw : ∀ t, 0 ≤ w t) (v : Fin mm → ℚ) :
    0 ≤ v ⬝ᵥ (Cᵀ * Matrix.diagonal w * C) *ᵥ v := by
  have h1 : (Cᵀ * Matrix.diagonal w * C) *ᵥ v =
      Cᵀ *ᵥ (Matrix.diagonal w *ᵥ (C *ᵥ v)) := by
    rw [← Matrix.mulVec_mulVec, ← Matrix.mulVec_mulVec]
  rw [h1, Matrix.dotProduct_mulVec, Matrix.vecMul_transpose]
  simp only [Matrix.dotProduct]
  refine Finset.sum_nonneg fun t _ => ?_
  rw [Matrix.mulVec_diagonal]
  have h2 : (C *ᵥ v) t * (w t * (C *ᵥ v) t) = w t * ((C *ᵥ v) t * (C *ᵥ v) t) := by
    ring
  rw [h2]
  exact mul_nonneg (hw t) (mul_self_nonneg _)

/-- C10: after an M-step the single shared covariance matrix equals the sum,
over all classes and all their components, of
`(X - mu[i][:,j])^T · diag(Y[:,i]*resp[i][:,j]) · (X - mu[i][:,j])`, divided
by `n` (pooled across all classes — no per-class covariance exists in the
state); it is symmetric, and positive semi-definite whenever the label
indicators and responsibilities are non-negative. -/
theorem c10_pooled_covariance (X : Matrix (Fin n) (Fin m) ℚ)
    (s : MDAState n m k clusters)
    (hY : ∀ t i, 0 ≤ s.Y t i)
    (hR : ∀ i t j, 0 ≤ s.responsibilities i t j) :
    (∀ a b, (m_step X s).covar a b =
      (∑ i, ∑ j, (m_step_centered X s i j)ᵀ *
          Matrix.diagonal (class_indicator s i j) * m_step_centered X s i j) a b /
        (n : ℚ)) ∧
    ((m_step X s).covar)ᵀ = (m_step X s).covar ∧
    (∀ v, 0 ≤ v ⬝ᵥ (m_step X s).covar *ᵥ v) := by
  set S : Matrix (Fin m) (Fin m) ℚ :=
    ∑ i, ∑ j, (m_step_centered X s i j)ᵀ *
      Matrix.diagonal (class_indicator s i j) * m_step_centered X s i j with hSdef
  have hS : Sᵀ = S := by
    rw [hSdef, Matrix.transpose_sum]
    refine Finset.sum_congr rfl fun i _ => ?_
    rw [Matrix.transpose_sum]
    refine Finset.sum_congr rfl fun j _ => ?_
    rw [Matrix.transpose_mul, Matrix.transpose_mul, Matrix.diagonal_transpose,
      Matrix.transpose_transpose]
    exact (Matrix.mul_assoc _ _ _).symm
  have hentry : ∀ a b, (m_step X s).covar a b = S a b / (n : ℚ) := fun a b => rfl
  refine ⟨hentry, ?_, ?_⟩
  · ext a b
    show (m_step X s).covar b a = (m_step X s).covar a b
    rw [hentry, hentry]
    have hba : S b a = S a b := by
      calc S b a = Sᵀ a b := rfl
        _ = S a b := by rw [hS]
    rw [hba]
  · intro v
    have hcov : (m_step X s).covar = (n : ℚ)⁻¹ • S := by
      ext a b
      rw [hentry]
      show S a b / (n : ℚ) = (n : ℚ)⁻¹ * S a b
      rw [div_eq_mul_inv, mul_comm]
    rw [hcov, Matrix.smul_mulVec_assoc, dotProduct_smul, smul_eq_mul]
    refine mul_nonneg (inv_nonneg.mpr (Nat.cast_nonneg n)) ?_
    rw [hSdef, dotProduct_sum_mulVec]
    refine Finset.sum_nonneg fun i _ => ?_
    rw [dotProduct_sum_mulVec]
    refine Finset.sum_nonneg fun j _ => ?_
    exact quadform_nonneg _ _ (fun t => mul_nonneg (hY t i) (hR i t j)) v

/-- C10 (witness): the pooled-covariance theorem evaluated at the concrete
state, whose labels and responsibilities are non-negative. -/
theorem c10_witness :
    ((∀ t i, 0 ≤ cState.Y t i) ∧ (∀ i t j, 0 ≤ cState.responsibilities i t j)) ∧
    ((∀ a b, (m_step cGlobalX cState).covar a b =
      (∑ i, ∑ j, (m_step_centered cGlobalX cState i j)ᵀ *
          Matrix.diagonal (class_indicator cState i j) *
          m_step_centered cGlobalX cState i j) a b / (2 : ℚ)) ∧
    ((m_step cGlobalX cState).covar)ᵀ = (m_step cGlobalX cState).covar ∧
    (∀ v, 0 ≤ v ⬝ᵥ (m_step cGlobalX cState).covar *ᵥ v)) := by
  have hY : ∀ t i, 0 ≤ cState.Y t i := by
    intro t i
    fin_cases t <;> fin_cases i <;> norm_num [cState]
  have hR : ∀ (i : Fin 2) (t : Fin 2) (j : Fin (cClusters i)),
      0 ≤ cState.responsibilities i t j := by
    intro i t j
    norm_num [cState]
  exact ⟨⟨hY, hR⟩, c10_pooled_covariance cGlobalX cState hY hR⟩

end MDA
